import Mathlib

/-!
Verification development for the maya-tweener plugin
(`tweener.py` and `mods/utils.py`).

The Python code is shallowly embedded: Maya scene state (selection lists,
plug connections, channel-box queries, panel queries) is passed explicitly
as data, Maya floats are modelled as rationals, and Maya API calls that can
raise on bad input are modelled with `Option`.
-/

namespace MayaTweener

/-! ## Node and attribute types (`maya.api.OpenMaya` enums used by the code) -/

/-- The `om.MFn` node api-type constants that `mods/utils.py` compares
against: the four time-driven anim-curve kinds, the four unitless-driven
("set driven key") kinds mentioned in `get_selected_anim_curves`'s
docstring, and a catch-all for every other node type. -/
inductive ApiType where
  | kAnimCurveTimeToAngular
  | kAnimCurveTimeToDistance
  | kAnimCurveTimeToUnitless
  | kAnimCurveTimeToTime
  | kAnimCurveUnitlessToAngular
  | kAnimCurveUnitlessToDistance
  | kAnimCurveUnitlessToUnitless
  | kAnimCurveUnitlessToTime
  | kOtherNode
deriving DecidableEq, Repr

/-- `ANIM_CURVE_TYPES` from `mods/utils.py` (lines 15-18). -/
def ANIM_CURVE_TYPES : List ApiType :=
  [ApiType.kAnimCurveTimeToAngular,
   ApiType.kAnimCurveTimeToDistance,
   ApiType.kAnimCurveTimeToUnitless,
   ApiType.kAnimCurveTimeToTime]

/-- The information the code reads off an `MObject` dependency node:
whether `obj.hasFn(om.MFn.kAnimCurve)` holds, its `apiType()`, and the
`absoluteName()` of its `MFnDependencyNode`. -/
structure MObjectNode where
  hasFnAnimCurve : Bool
  apiType : ApiType
  absoluteName : String
deriving DecidableEq, Repr

/-! ## Curve samples and the Bezier segment builder
(`get_curve_tangents_bezier_points`, `mods/utils.py` lines 237-257) -/

/-- `Point = namedtuple('Point', 'x y')` from `mods/utils.py`. -/
structure Point where
  x : ℚ
  y : ℚ
deriving DecidableEq, Repr

/-- One key of an `MFnAnimCurve` as the code reads it: `input(i)` in
seconds, `value(i)`, and the two tangents `getTangentXY(i, False)`
(outgoing) and `getTangentXY(i, True)` (incoming). -/
structure Keyframe where
  time : ℚ
  value : ℚ
  tangentOut : ℚ × ℚ
  tangentIn : ℚ × ℚ
deriving DecidableEq, Repr

/-- An `MFnAnimCurve` as the list of its keys, indexed as the Maya API
indexes them. -/
structure AnimCurveFn where
  keys : List Keyframe
deriving DecidableEq, Repr

/-- `get_curve_tangents_bezier_points(curve_fn, start_index, end_index)`
from `mods/utils.py` lines 237-257.  An out-of-range key index makes the
underlying Maya accessors (`input`/`value`/`getTangentXY`) raise, which is
modelled as `none`; otherwise the four points are computed exactly as in
the source:
`p1 = (input(s), value(s))`, `p4 = (input(e), value(e))`,
`p2 = (p1.x + outTan.x / 3, p1.y + outTan.y / 3)`,
`p3 = (p4.x - inTan.x / 3, p4.y - inTan.y / 3)`. -/
def get_curve_tangents_bezier_points (curve_fn : AnimCurveFn)
    (start_index end_index : Nat) : Option (Point × Point × Point × Point) :=
  match curve_fn.keys.get? start_index, curve_fn.keys.get? end_index with
  | some ks, some ke =>
    let p1 : Point := ⟨ks.time, ks.value⟩
    let p4 : Point := ⟨ke.time, ke.value⟩
    let t2 := ks.tangentOut
    let p2 : Point := ⟨p1.x + t2.1 / 3, p1.y + t2.2 / 3⟩
    let t3 := ke.tangentIn
    let p3 : Point := ⟨p4.x - t3.1 / 3, p4.y - t3.2 / 3⟩
    some (p1, p2, p3, p4)
  | _, _ => none

/-- The four control points as the spec's §4.2 words describe them, for a
start key `ks` and an end key `ke`: `p1`/`p4` are the key positions,
`p2 = p1 + outgoingTangent(start) / 3` and `p3 = p4 - incomingTangent(end) / 3`
componentwise.  Stated from the spec, to be compared with
`get_curve_tangents_bezier_points`. -/
def specSegmentOfKeys (ks ke : Keyframe) : Point × Point × Point × Point :=
  (⟨ks.time, ks.value⟩,
   ⟨ks.time + ks.tangentOut.1 / 3, ks.value + ks.tangentOut.2 / 3⟩,
   ⟨ke.time - ke.tangentIn.1 / 3, ke.value - ke.tangentIn.2 / 3⟩,
   ⟨ke.time, ke.value⟩)

/-! ## Selection items and the curve-selection resolvers -/

/-- `MItSelectionList.itemType()` results the code checks. -/
inductive SelItemType where
  | kDagSelectionItem
  | kAnimSelectionItem
  | kDNselectionItem
  | kOtherItem
deriving DecidableEq, Repr

/-- One item of the active selection list: its item type and its
dependency node. -/
structure SelectionItem where
  itemType : SelItemType
  obj : MObjectNode
deriving DecidableEq, Repr

/-- Python dict assignment `d[k] = v`: overwrite the entry if the key is
present, else append a new entry (`curve_dict[node.absoluteName()] = node`
in `get_selected_anim_curves`). -/
def dictInsert (d : List (String × MObjectNode)) (k : String) (v : MObjectNode) :
    List (String × MObjectNode) :=
  if d.any (fun p => decide (p.1 = k)) then
    d.map (fun p => if p.1 = k then (k, v) else p)
  else
    d ++ [(k, v)]

/-- `get_selected_anim_curves()` from `mods/utils.py` lines 90-121.  The
selection list is an explicit argument; `MItSelectionList(sl_list,
om.MFn.kAnimCurve)` iterates exactly over the items whose node has the
`kAnimCurve` function set. -/
def get_selected_anim_curves (sl_list : List SelectionItem) : List MObjectNode :=
  let it := sl_list.filter (fun i => i.obj.hasFnAnimCurve)
  let curve_dict := it.foldl (fun d i =>
    if i.itemType = SelItemType.kDagSelectionItem ∨
        i.itemType = SelItemType.kAnimSelectionItem ∨
        i.itemType = SelItemType.kDNselectionItem then
      if i.obj.apiType ∈ ANIM_CURVE_TYPES then
        dictInsert d i.obj.absoluteName i.obj
      else d
    else d) []
  curve_dict.map (fun p => p.2)

/-- One attribute of a dependency node as `get_anim_curves_from_objects`
reads it: its `MFnAttribute.shortName` and `plug.connectedTo(True, False)`
(the nodes feeding the plug). -/
structure MayaAttribute where
  shortName : String
  connections : List MObjectNode
deriving DecidableEq, Repr

/-- A selected dependency node with its attribute list. -/
structure DependNode where
  attributes : List MayaAttribute
deriving DecidableEq, Repr

/-- The four `cmds.channelBox('mainChannelBox', q=True, ...)` query results
read by `get_channelbox_attributes` (`None` or a list of short names).
Python sets are modelled as lists, up to membership. -/
structure ChannelBoxState where
  s1 : Option (List String)
  s2 : Option (List String)
  s3 : Option (List String)
  s4 : Option (List String)
deriving DecidableEq, Repr

/-- `get_channelbox_attributes()` from `mods/utils.py` lines 162-189:
union the four query results and return `None` when the union is empty. -/
def get_channelbox_attributes (cb : ChannelBoxState) : Option (List String) :=
  let attr : List String := []
  let attr := match cb.s1 with | some l => attr ++ l | none => attr
  let attr := match cb.s2 with | some l => attr ++ l | none => attr
  let attr := match cb.s3 with | some l => attr ++ l | none => attr
  let attr := match cb.s4 with | some l => attr ++ l | none => attr
  if attr.length = 0 then none else some attr

/-- The body of the attribute loop of `get_anim_curves_from_objects`
(`mods/utils.py` lines 64-85), as the curve it contributes, if any: take
`connections[0]` when the plug has a connection, require
`conn_node.hasFn(om.MFn.kAnimCurve)`, apply the channel-box filter when
`channelbox_attr` is truthy (a Python set is truthy iff non-empty), and
require `apiType() in ANIM_CURVE_TYPES`. -/
def attrCurveContribution (channelbox_attr : Option (List String))
    (attr : MayaAttribute) : Option MObjectNode :=
  match attr.connections with
  | [] => none
  | conn :: _ =>
    if conn.hasFnAnimCurve then
      if (match channelbox_attr with
          | some cbs => cbs.isEmpty || decide (attr.shortName ∈ cbs)
          | none => true) then
        if conn.apiType ∈ ANIM_CURVE_TYPES then some conn else none
      else none
    else none

/-- `get_anim_curves_from_objects(nodes)` from `mods/utils.py` lines 48-87.
The channel-box state the function queries is an explicit argument. -/
def get_anim_curves_from_objects (cb : ChannelBoxState) (nodes : List DependNode) :
    List MObjectNode :=
  let channelbox_attr := get_channelbox_attributes cb
  nodes.foldl (fun curve_list node =>
    node.attributes.foldl (fun cl attr =>
      match attrCurveContribution channelbox_attr attr with
      | some curve_node => cl ++ [curve_node]
      | none => cl) curve_list) []

/-- Rename every attribute's short name through `f`, keeping connections.
Used to state that no attribute-name filtering happens when the
channel-box restriction is inactive. -/
def renameAttrs (f : String → String) (nodes : List DependNode) : List DependNode :=
  nodes.map (fun n => ⟨n.attributes.map (fun a => ⟨f a.shortName, a.connections⟩)⟩)

/-! ## Default value query
(`get_anim_curve_default_value`, `mods/utils.py` lines 124-159) -/

/-- The `MFn` api-type constants of attribute objects that
`get_anim_curve_default_value` switches on. -/
inductive AttrApiType where
  | kNumericAttribute
  | kDoubleLinearAttribute
  | kFloatLinearAttribute
  | kDoubleAngleAttribute
  | kFloatAngleAttribute
  | kOtherAttribute
deriving DecidableEq, Repr

/-- An attribute object reached through the curve's `output` plug:
its api type, the `MFnNumericAttribute(...).default` and the
`MFnUnitAttribute(...).default` read back through `MDistance`/`MAngle`
as a plain number. -/
structure AttrObj where
  apiType : AttrApiType
  numericDefault : ℚ
  unitDefault : ℚ
deriving DecidableEq, Repr

/-- An anim-curve node as `get_anim_curve_default_value` sees it: the
destination attributes of `findPlug('output').connectedTo(False, True)`. -/
structure AnimCurveOutputs where
  outputConnections : List AttrObj
deriving DecidableEq, Repr

/-- `get_anim_curve_default_value(anim_curve)` from `mods/utils.py` lines
124-159: `None` when the output plug is unconnected, the numeric default
for `kNumericAttribute`, the unit default for linear and angular unit
attributes, and `None` for every other attribute kind. -/
def get_anim_curve_default_value (anim_curve : AnimCurveOutputs) : Option ℚ :=
  match anim_curve.outputConnections with
  | [] => none
  | conn :: _ =>
    match conn.apiType with
    | AttrApiType.kNumericAttribute => some conn.numericDefault
    | AttrApiType.kDoubleLinearAttribute => some conn.unitDefault
    | AttrApiType.kFloatLinearAttribute => some conn.unitDefault
    | AttrApiType.kDoubleAngleAttribute => some conn.unitDefault
    | AttrApiType.kFloatAngleAttribute => some conn.unitDefault
    | AttrApiType.kOtherAttribute => none

/-! ## Graph editor / dope sheet context query
(`is_graph_editor`, `mods/utils.py` lines 192-217) -/

/-- The `cmds.getPanel` query results `is_graph_editor` reads. -/
structure PanelState where
  visible_panels : List String
  graph_panels : Option (List String)
  dope_panels : Option (List String)
deriving DecidableEq, Repr

/-- `is_graph_editor()` from `mods/utils.py` lines 192-217.  The selection
list and the panel queries are explicit arguments;
`not it.isDone()` for the `kAnimCurve`-filtered iterator is modelled as
the filtered list being non-empty. -/
def is_graph_editor (sl_list : List SelectionItem) (ps : PanelState) : Bool :=
  let it := sl_list.filter (fun i => i.obj.hasFnAnimCurve)
  let graph_vis := match ps.graph_panels with
    | some gp => ps.visible_panels.any (fun x => decide (x ∈ gp))
    | none => false
  let dope_vis := match ps.dope_panels with
    | some dp => ps.visible_panels.any (fun x => decide (x ∈ dp))
    | none => false
  !it.isEmpty && (graph_vis || dope_vis)

/-! ## The `tweener` command (`tweener.py`, class `TweenerCmd`)

`TweenerCmd.doIt` reads its flags, then either shows the UI (zero flags),
creates a fresh `oma.MAnimCurveChange` cache and installs it at module
level before calling `tween.prepare` (press), or reuses the module-level
cache and calls `tween.interpolate` (drag).  Cache objects are modelled by
allocation ids drawn from a counter, so that "fresh object" is expressible;
the calls into `mods.ui` and `mods.tween` are recorded as effects. -/

/-- The parsed flag state of one `tweener` invocation: for each of the
three flags (`-t` interpolant, `-p` press, `-tp` type), whether it was
set and its value. -/
structure TweenerArgs where
  interpolantSet : Bool
  interpolantVal : ℚ
  pressSet : Bool
  pressVal : Bool
  typeSet : Bool
  typeVal : String
deriving DecidableEq, Repr

/-- `MArgParser.numberOfFlagsUsed`, returned by `TweenerCmd.pass_args`. -/
def numberOfFlagsUsed (a : TweenerArgs) : Nat :=
  (if a.interpolantSet then 1 else 0) + (if a.pressSet then 1 else 0) +
    (if a.typeSet then 1 else 0)

/-- `self.blend_arg` after `pass_args`: the flag value when set, else the
class default `0`. -/
def blend_arg (a : TweenerArgs) : ℚ :=
  if a.interpolantSet then a.interpolantVal else 0

/-- `self.press_arg` after `pass_args`: the flag value when set, else the
class default `False`. -/
def press_arg (a : TweenerArgs) : Bool :=
  if a.pressSet then a.pressVal else false

/-- `self.type_arg` after `pass_args`: the flag value when set, else the
class default `None`. -/
def type_arg (a : TweenerArgs) : Option String :=
  if a.typeSet then some a.typeVal else none

/-- The external calls `TweenerCmd.doIt` makes: `ui.show()`,
`tween.prepare(t_type=...)` and `tween.interpolate(t=..., t_type=...)`. -/
inductive Effect where
  | showUI
  | prepare (t_type : Option String)
  | interpolate (t : ℚ) (t_type : Option String)
deriving DecidableEq, Repr

/-- The mutable state `doIt` touches: the module-level `tween.anim_cache`,
the command's `self.anim_cache`, and an allocation counter giving each
`oma.MAnimCurveChange()` construction a fresh id. -/
structure CmdState where
  tween_anim_cache : Option Nat
  self_anim_cache : Option Nat
  nextCacheId : Nat
deriving DecidableEq, Repr

/-- `TweenerCmd.doIt` from `tweener.py` lines 128-145.  Zero flags: show
the UI and return.  Press truthy: construct a fresh cache, store it both
in `self.anim_cache` and `tween.anim_cache`, call `tween.prepare`.
Otherwise: set `self.anim_cache` to the module-level cache and call
`tween.interpolate`. -/
def doIt (st : CmdState) (a : TweenerArgs) : CmdState × List Effect :=
  if numberOfFlagsUsed a = 0 then
    (st, [Effect.showUI])
  else if press_arg a then
    ({ tween_anim_cache := some st.nextCacheId,
       self_anim_cache := some st.nextCacheId,
       nextCacheId := st.nextCacheId + 1 },
     [Effect.prepare (type_arg a)])
  else
    ({ st with self_anim_cache := st.tween_anim_cache },
     [Effect.interpolate (blend_arg a) (type_arg a)])

/-- Allocation well-formedness: every cache id stored at module level was
produced by the allocation counter, so it is below `nextCacheId`. -/
def cacheWf (st : CmdState) : Bool :=
  match st.tween_anim_cache with
  | none => true
  | some c => decide (c < st.nextCacheId)

/-! ## Change cache and session writes

Modelled from the spec: the drag-time value writes live in `mods/tween.py`
and the cache record/undo mechanics in Maya's `oma.MAnimCurveChange`,
neither of which is under `src/`; §4.5 of the spec describes them.
Keys are addressed by `(curve handle, key index)` pairs, the scene's curve
values by a total map from such pairs to values. -/

/-- Scene curve values: `(curve handle, key index) → value`. -/
abbrev CurveValues : Type := Nat × Nat → ℚ

/-- Modelled from the spec: one entry of the change cache, a touched
`(curve, keyIndex)` and its pre-session `originalValue` (§4.5). -/
structure CacheEntry where
  key : Nat × Nat
  originalValue : ℚ
deriving DecidableEq, Repr

/-- Modelled from the spec: the change cache (`oma.MAnimCurveChange`) as
its recorded entries, append-only during the session. -/
abbrev ChangeCache : Type := List CacheEntry

/-- Write one key's value in the scene. -/
def writeValue (s : CurveValues) (k : Nat × Nat) (v : ℚ) : CurveValues :=
  fun k2 => if k2 = k then v else s k2

/-- Modelled from the spec: `record(curve, keyIndex, originalValue)`
appends once per key per session and must not overwrite an
already-recorded original on a later drag (§4.5). -/
def record (cache : ChangeCache) (k : Nat × Nat) (orig : ℚ) : ChangeCache :=
  if cache.any (fun e => decide (e.key = k)) then cache else cache ++ [⟨k, orig⟩]

/-- Modelled from the spec: one drag-time write through the cache — record
the key's current value as original (idempotently), then overwrite the
key (§4.4 drag, §4.5 record). -/
def dragWrite (st : CurveValues × ChangeCache) (k : Nat × Nat) (v : ℚ) :
    CurveValues × ChangeCache :=
  (writeValue st.1 k v, record st.2 k (st.1 k))

/-- Modelled from the spec: the writes of one session, starting from the
pre-session scene `s0` with an empty cache, applying each requested
`(key, value)` write in order. -/
def sessionWrites (s0 : CurveValues) (ws : List ((Nat × Nat) × ℚ)) :
    CurveValues × ChangeCache :=
  ws.foldl (fun st w => dragWrite st w.1 w.2) (s0, [])

/-- Modelled from the spec: `undo()` restores every recorded
`(curve, keyIndex)` to its `originalValue` (§4.5); this is what
`TweenerCmd.undoIt` triggers through `self.anim_cache.undoIt()`
(`tweener.py` lines 150-151). -/
def undoIt (cache : ChangeCache) (s : CurveValues) : CurveValues :=
  cache.foldl (fun s2 e => writeValue s2 e.key e.originalValue) s

/-- Session invariant tying a mid-session scene and cache back to the
pre-session scene `s0`: every recorded original is the key's pre-session
value, and every unrecorded key still holds its pre-session value. -/
def cacheInv (s0 : CurveValues) (st : CurveValues × ChangeCache) : Prop :=
  (∀ e ∈ st.2, e.originalValue = s0 e.key) ∧
  (∀ k, (∀ e ∈ st.2, e.key ≠ k) → st.1 k = s0 k)

/-! ## Concrete fixtures used by witnesses and counterexamples -/

/-- A concrete key at time 0. -/
def demoKey0 : Keyframe := ⟨0, 1, (3, 6), (9, 12)⟩

/-- A concrete key at time 10. -/
def demoKey1 : Keyframe := ⟨10, 5, (6, 3), (12, 9)⟩

/-- A concrete two-key animation curve. -/
def demoCurve : AnimCurveFn := ⟨[demoKey0, demoKey1]⟩

/-- A concrete time-driven anim-curve node. -/
def demoCurveNode : MObjectNode := ⟨true, ApiType.kAnimCurveTimeToDistance, "curveA"⟩

/-- A second concrete time-driven anim-curve node. -/
def demoCurveNodeB : MObjectNode := ⟨true, ApiType.kAnimCurveTimeToAngular, "curveB"⟩

/-- A concrete driven-key (unitless-input) curve node. -/
def demoDrivenNode : MObjectNode := ⟨true, ApiType.kAnimCurveUnitlessToAngular, "curveU"⟩

/-- A concrete selection list mixing an eligible curve, a driven-key curve
and an item of another selection kind. -/
def demoSel : List SelectionItem :=
  [⟨SelItemType.kDNselectionItem, demoCurveNode⟩,
   ⟨SelItemType.kDNselectionItem, demoDrivenNode⟩,
   ⟨SelItemType.kOtherItem, demoCurveNode⟩]

/-- A concrete attribute named `tx` driven by an eligible curve. -/
def demoAttrTx : MayaAttribute := ⟨"tx", [demoCurveNodeB]⟩

/-- A concrete attribute named `ty` driven by an eligible curve. -/
def demoAttrTy : MayaAttribute := ⟨"ty", [demoCurveNode]⟩

/-- A concrete selected object carrying the two demo attributes. -/
def demoObjNodes : List DependNode := [⟨[demoAttrTx, demoAttrTy]⟩]

/-- A concrete channel-box state with `tx` selected. -/
def demoCb : ChannelBoxState := ⟨some ["tx"], none, none, none⟩

/-- A concrete command state with one already-allocated cache. -/
def demoSt : CmdState := ⟨some 0, none, 1⟩

/-- Concrete flags for a press invocation (`tweener -p 1`). -/
def demoArgsPress : TweenerArgs := ⟨false, 0, true, true, false, ""⟩

/-- Concrete flags for a drag invocation (`tweener -t 0.5`). -/
def demoArgsDrag : TweenerArgs := ⟨true, (1 : ℚ)/2, false, false, false, ""⟩

/-- Concrete flags for an invocation with no flags at all. -/
def demoArgsNone : TweenerArgs := ⟨false, 0, false, false, false, ""⟩

/-! ## Theorems -/

/-- C1: for every animation curve and every pair of valid adjacent key
indices `(i, i+1)`, `get_curve_tangents_bezier_points` returns exactly the
segment the spec describes: `p1`/`p4` are the two key positions, `p2` adds
one third of the start key's outgoing tangent to `p1`, and `p3` subtracts
one third of the end key's incoming tangent from `p4`, componentwise. -/
theorem bezier_segment_matches_spec (c : AnimCurveFn) (i : Nat)
    (ks ke : Keyframe) (hs : c.keys.get? i = some ks)
    (he : c.keys.get? (i + 1) = some ke) :
    get_curve_tangents_bezier_points c i (i + 1) =
      some (specSegmentOfKeys ks ke) := by
  rw [List.get?_eq_getElem?] at hs he
  simp [get_curve_tangents_bezier_points, hs, he, specSegmentOfKeys]

/-- Witness for C1 on the concrete two-key curve. -/
theorem bezier_segment_matches_spec_witness :
    demoCurve.keys.get? 0 = some demoKey0 ∧
    demoCurve.keys.get? 1 = some demoKey1 ∧
    get_curve_tangents_bezier_points demoCurve 0 1 =
      some (specSegmentOfKeys demoKey0 demoKey1) :=
  ⟨by decide, by decide,
   bezier_segment_matches_spec demoCurve 0 demoKey0 demoKey1 (by decide) (by decide)⟩

/-- C5 counterexample: the builder performs no index-order validation and
has no `InvalidRange` failure: called with `start_index = 1 ≥ 0 =
end_index` on the concrete two-key curve it silently returns a segment
instead of failing. -/
theorem bezier_builder_no_invalid_range :
    1 ≥ 0 ∧ get_curve_tangents_bezier_points demoCurve 1 0 ≠ none := by
  decide

/-- C5 amended: the builder does not validate the ordering of its key
indices: for any two in-range indices, in either order, it returns the
four points computed by the same formulas; only an out-of-range index
fails, through the underlying curve accessor, and no `InvalidRange` error
exists. -/
theorem bezier_builder_any_valid_indices (c : AnimCurveFn) (s e : Nat)
    (ks ke : Keyframe) (hs : c.keys.get? s = some ks)
    (he : c.keys.get? e = some ke) :
    get_curve_tangents_bezier_points c s e = some (specSegmentOfKeys ks ke) := by
  rw [List.get?_eq_getElem?] at hs he
  simp [get_curve_tangents_bezier_points, hs, he, specSegmentOfKeys]

/-- Witness for the amended C5, at the reversed index pair `(1, 0)`. -/
theorem bezier_builder_any_valid_indices_witness :
    demoCurve.keys.get? 1 = some demoKey1 ∧
    demoCurve.keys.get? 0 = some demoKey0 ∧
    get_curve_tangents_bezier_points demoCurve 1 0 =
      some (specSegmentOfKeys demoKey1 demoKey0) :=
  ⟨by decide, by decide,
   bezier_builder_any_valid_indices demoCurve 1 0 demoKey1 demoKey0 (by decide) (by decide)⟩

/-- C6: `get_anim_curve_default_value` is total (the embedding returns an
`Option`, never raising) and returns a value exactly when the output plug
has a connection whose attribute is numeric, linear or angular — that is,
any of the handled kinds — and `none` when the plug is unconnected or the
attribute is of any other kind. -/
theorem default_value_some_iff (c : AnimCurveOutputs) :
    (get_anim_curve_default_value c).isSome = true ↔
      ∃ conn rest, c.outputConnections = conn :: rest ∧
        conn.apiType ≠ AttrApiType.kOtherAttribute := by
  cases h : c.outputConnections with
  | nil => simp [get_anim_curve_default_value, h]
  | cons conn rest =>
    cases hc : conn.apiType <;>
      simp_all [get_anim_curve_default_value, h, hc]

/-- C9: `is_graph_editor` returns `true` exactly when the active selection
contains at least one animation-curve node and a Graph Editor or Dope
Sheet panel is among the visible panels. -/
theorem is_graph_editor_iff (sl : List SelectionItem) (ps : PanelState) :
    is_graph_editor sl ps = true ↔
      ((∃ i ∈ sl, i.obj.hasFnAnimCurve = true) ∧
       ((∃ gp, ps.graph_panels = some gp ∧ ∃ x ∈ ps.visible_panels, x ∈ gp) ∨
        (∃ dp, ps.dope_panels = some dp ∧ ∃ x ∈ ps.visible_panels, x ∈ dp))) := by
  cases hg : ps.graph_panels <;> cases hd : ps.dope_panels <;>
    simp [is_graph_editor, hg, hd, List.isEmpty_eq_false_iff_exists_mem,
      List.any_eq_true, List.mem_filter]

/-- C10: an invocation with zero flags only shows the UI: the state,
including the module-level cache reference and the allocation counter, is
returned unchanged and the only effect is `ui.show()` — no cache is
created and no curve value is written. -/
theorem no_flags_shows_ui_only (st : CmdState) (a : TweenerArgs)
    (h : numberOfFlagsUsed a = 0) :
    doIt st a = (st, [Effect.showUI]) := by
  simp [doIt, h]

/-- Witness for C10 at a concrete state and flagless invocation. -/
theorem no_flags_shows_ui_only_witness :
    numberOfFlagsUsed demoArgsNone = 0 ∧
    doIt demoSt demoArgsNone = (demoSt, [Effect.showUI]) :=
  ⟨by decide, no_flags_shows_ui_only demoSt demoArgsNone (by decide)⟩

/-- Helper: a second `record` of the same key is a no-op, so a cache holds
one entry per touched key per session. -/
theorem record_idem (cache : ChangeCache) (k : Nat × Nat) (o o2 : ℚ) :
    record (record cache k o) k o2 = record cache k o := by
  unfold record
  by_cases h : cache.any (fun e => decide (e.key = k)) = true
  · simp [h]
  · simp [h, List.any_append]

/-- C7: a drag invocation (flags given, press falsy) reuses the
module-level cache: the module cache reference is unchanged, the command's
own reference is set to it, the allocation counter does not move (no new
cache is constructed), the only effect is `tween.interpolate`, and the
cache records one entry per touched key (a repeated `record` of a key is a
no-op). -/
theorem drag_reuses_module_cache (st : CmdState) (a : TweenerArgs)
    (hn : numberOfFlagsUsed a ≠ 0) (hp : press_arg a = false) :
    (doIt st a).1.tween_anim_cache = st.tween_anim_cache ∧
    (doIt st a).1.self_anim_cache = st.tween_anim_cache ∧
    (doIt st a).1.nextCacheId = st.nextCacheId ∧
    (doIt st a).2 = [Effect.interpolate (blend_arg a) (type_arg a)] ∧
    ∀ cache k o o2, record (record cache k o) k o2 = record cache k o := by
  refine ⟨?_, ?_, ?_, ?_, fun cache k o o2 => record_idem cache k o o2⟩ <;>
    simp [doIt, hn, hp]

/-- Witness for C7 at a concrete state and drag invocation. -/
theorem drag_reuses_module_cache_witness :
    numberOfFlagsUsed demoArgsDrag ≠ 0 ∧ press_arg demoArgsDrag = false ∧
    (doIt demoSt demoArgsDrag).1.tween_anim_cache = demoSt.tween_anim_cache ∧
    (doIt demoSt demoArgsDrag).1.self_anim_cache = demoSt.tween_anim_cache :=
  ⟨by decide, by decide,
   (drag_reuses_module_cache demoSt demoArgsDrag (by decide) (by decide)).1,
   (drag_reuses_module_cache demoSt demoArgsDrag (by decide) (by decide)).2.1⟩

/-- C3: a press invocation always succeeds and constructs a fresh cache,
installing it both as the command's cache and as the single module-level
cache: the freshly allocated id replaces whatever was stored before, and —
given that every stored id came from the allocation counter — the new
cache is never the old one. -/
theorem press_creates_fresh_cache (st : CmdState) (a : TweenerArgs)
    (hp : press_arg a = true) (hwf : cacheWf st = true) :
    (doIt st a).1.tween_anim_cache = some st.nextCacheId ∧
    (doIt st a).1.self_anim_cache = some st.nextCacheId ∧
    (doIt st a).1.nextCacheId = st.nextCacheId + 1 ∧
    (doIt st a).2 = [Effect.prepare (type_arg a)] ∧
    (doIt st a).1.tween_anim_cache ≠ st.tween_anim_cache := by
  have hset : a.pressSet = true := by
    cases hps : a.pressSet
    · simp [press_arg, hps] at hp
    · rfl
  have hn : ¬ numberOfFlagsUsed a = 0 := by
    simp [numberOfFlagsUsed, hset]
  refine ⟨?_, ?_, ?_, ?_, ?_⟩ <;> simp [doIt, hn, hp]
  cases hc : st.tween_anim_cache with
  | none => simp
  | some c =>
    simp [cacheWf, hc] at hwf
    simp
    omega

/-- Witness for C3: pressing on a state that already holds cache id `0`
installs the fresh id `1` at module level. -/
theorem press_creates_fresh_cache_witness :
    press_arg demoArgsPress = true ∧ cacheWf demoSt = true ∧
    (doIt demoSt demoArgsPress).1.tween_anim_cache = some demoSt.nextCacheId ∧
    (doIt demoSt demoArgsPress).1.tween_anim_cache ≠ demoSt.tween_anim_cache :=
  ⟨by decide, by decide,
   (press_creates_fresh_cache demoSt demoArgsPress (by decide) (by decide)).1,
   (press_creates_fresh_cache demoSt demoArgsPress (by decide) (by decide)).2.2.2.2⟩

/-- Helper: `dictInsert` preserves "every stored curve node has an
eligible type" when the inserted node does. -/
theorem dictInsert_types (d : List (String × MObjectNode)) (k : String)
    (v : MObjectNode)
    (hd : ∀ p ∈ d, p.2.apiType ∈ ANIM_CURVE_TYPES)
    (hv : v.apiType ∈ ANIM_CURVE_TYPES) :
    ∀ p ∈ dictInsert d k v, p.2.apiType ∈ ANIM_CURVE_TYPES := by
  intro p hp
  unfold dictInsert at hp
  split at hp
  · rw [List.mem_map] at hp
    obtain ⟨q, hq, hqe⟩ := hp
    by_cases hqk : q.1 = k
    · rw [if_pos hqk] at hqe
      rw [← hqe]
      exact hv
    · rw [if_neg hqk] at hqe
      rw [← hqe]
      exact hd q hq
  · rw [List.mem_append] at hp
    cases hp with
    | inl h2 => exact hd p h2
    | inr h2 =>
      simp at h2
      rw [h2]
      exact hv

/-- Helper: the dict fold of `get_selected_anim_curves` only ever stores
curve nodes of the four eligible types. -/
theorem selected_fold_types (l : List SelectionItem)
    (d : List (String × MObjectNode))
    (hd : ∀ p ∈ d, p.2.apiType ∈ ANIM_CURVE_TYPES) :
    ∀ p ∈ l.foldl (fun d i =>
      if i.itemType = SelItemType.kDagSelectionItem ∨
          i.itemType = SelItemType.kAnimSelectionItem ∨
          i.itemType = SelItemType.kDNselectionItem then
        if i.obj.apiType ∈ ANIM_CURVE_TYPES then
          dictInsert d i.obj.absoluteName i.obj
        else d
      else d) d, p.2.apiType ∈ ANIM_CURVE_TYPES := by
  induction l generalizing d with
  | nil => exact hd
  | cons i rest ih =>
    simp only [List.foldl_cons]
    apply ih
    by_cases h1 : i.itemType = SelItemType.kDagSelectionItem ∨
        i.itemType = SelItemType.kAnimSelectionItem ∨
        i.itemType = SelItemType.kDNselectionItem
    · by_cases h2 : i.obj.apiType ∈ ANIM_CURVE_TYPES
      · simpa [h1, h2] using dictInsert_types d i.obj.absoluteName i.obj hd h2
      · simpa [h1, h2] using hd
    · simpa [h1] using hd

/-- Helper: an attribute's contribution, when present, has one of the four
eligible curve types, for any channel-box restriction. -/
theorem contribution_types (cba : Option (List String)) (attr : MayaAttribute)
    (c : MObjectNode) (h : attrCurveContribution cba attr = some c) :
    c.apiType ∈ ANIM_CURVE_TYPES := by
  unfold attrCurveContribution at h
  cases hconn : attr.connections with
  | nil =>
    rw [hconn] at h
    simp at h
  | cons conn rest =>
    rw [hconn] at h
    simp at h
    obtain ⟨-, -, htype, hcc⟩ := h
    rw [← hcc]
    exact htype

/-- Helper: the inner attribute fold of `get_anim_curves_from_objects` is
the accumulated list followed by a `filterMap` of the contributions. -/
theorem attrs_foldl_filterMap (cba : Option (List String))
    (attrs : List MayaAttribute) (acc : List MObjectNode) :
    attrs.foldl (fun cl attr =>
      match attrCurveContribution cba attr with
      | some curve_node => cl ++ [curve_node]
      | none => cl) acc
      = acc ++ attrs.filterMap (attrCurveContribution cba) := by
  induction attrs generalizing acc with
  | nil => simp
  | cons a rest ih =>
    simp only [List.foldl_cons, List.filterMap_cons]
    cases h : attrCurveContribution cba a with
    | none => simp [h, ih]
    | some cn => simp [h, ih]

/-- Helper: the node fold of `get_anim_curves_from_objects` is the
accumulated list followed by a `flatMap` of per-node contributions. -/
theorem nodes_foldl_bind (cba : Option (List String))
    (nodes : List DependNode) (acc : List MObjectNode) :
    nodes.foldl (fun curve_list node =>
      node.attributes.foldl (fun cl attr =>
        match attrCurveContribution cba attr with
        | some curve_node => cl ++ [curve_node]
        | none => cl) curve_list) acc
      = acc ++ nodes.flatMap
          (fun n => n.attributes.filterMap (attrCurveContribution cba)) := by
  induction nodes generalizing acc with
  | nil => simp
  | cons n rest ih =>
    simp only [List.foldl_cons, List.flatMap_cons]
    rw [attrs_foldl_filterMap, ih, List.append_assoc]

/-- Helper: `get_anim_curves_from_objects` in `flatMap`/`filterMap`
form. -/
theorem get_anim_curves_from_objects_eq_bind (cb : ChannelBoxState)
    (nodes : List DependNode) :
    get_anim_curves_from_objects cb nodes =
      nodes.flatMap (fun n => n.attributes.filterMap
        (attrCurveContribution (get_channelbox_attributes cb))) := by
  exact nodes_foldl_bind (get_channelbox_attributes cb) nodes []

/-- C4: both curve-selection resolvers only return curves of the four
time-driven kinds in `ANIM_CURVE_TYPES`; a driven-key curve (or any other
node) is never returned, by either the direct-selection resolver or the
object-attribute resolver. -/
theorem resolvers_only_time_driven (sl : List SelectionItem)
    (cb : ChannelBoxState) (nodes : List DependNode) (n c : MObjectNode) :
    (n ∈ get_selected_anim_curves sl → n.apiType ∈ ANIM_CURVE_TYPES) ∧
    (c ∈ get_anim_curves_from_objects cb nodes →
      c.apiType ∈ ANIM_CURVE_TYPES) := by
  constructor
  · intro hn
    simp only [get_selected_anim_curves, List.mem_map] at hn
    obtain ⟨p, hp, hpe⟩ := hn
    rw [← hpe]
    exact selected_fold_types _ [] (by simp) p hp
  · intro hc
    rw [get_anim_curves_from_objects_eq_bind, List.mem_flatMap] at hc
    obtain ⟨nd, hnd, hc⟩ := hc
    rw [List.mem_filterMap] at hc
    obtain ⟨a, ha, hac⟩ := hc
    exact contribution_types _ a c hac

/-- Witness for C4: the two concrete resolver outputs have eligible
types. -/
theorem resolvers_only_time_driven_witness :
    demoCurveNode.apiType ∈ ANIM_CURVE_TYPES ∧
    demoCurveNodeB.apiType ∈ ANIM_CURVE_TYPES :=
  ⟨(resolvers_only_time_driven demoSel demoCb demoObjNodes demoCurveNode
      demoCurveNodeB).1 (by decide),
   (resolvers_only_time_driven demoSel demoCb demoObjNodes demoCurveNode
      demoCurveNodeB).2 (by decide)⟩

/-- Helper: a length-guarded `some` result is a non-empty list. -/
theorem ite_length_some (l s : List String)
    (h : (if l.length = 0 then (none : Option (List String)) else some l) =
      some s) :
    s.isEmpty = false := by
  by_cases hl : l.length = 0
  · simp [hl] at h
  · rw [if_neg hl] at h
    injection h with h2
    rw [← h2]
    cases l with
    | nil => exact absurd rfl hl
    | cons a t => rfl

/-- Helper: a `some` result of `get_channelbox_attributes` is a non-empty
attribute-name set. -/
theorem channelbox_some_ne_empty (cb : ChannelBoxState) (s : List String)
    (h : get_channelbox_attributes cb = some s) : s.isEmpty = false := by
  simp only [get_channelbox_attributes] at h
  exact ite_length_some _ s h

/-- Helper: under an active non-empty channel-box restriction, an
attribute contributes a curve only when its short name is selected. -/
theorem contribution_name_selected (s : List String) (hs : s.isEmpty = false)
    (attr : MayaAttribute) (c : MObjectNode)
    (h : attrCurveContribution (some s) attr = some c) :
    attr.shortName ∈ s := by
  unfold attrCurveContribution at h
  cases hconn : attr.connections with
  | nil =>
    rw [hconn] at h
    simp at h
  | cons conn rest =>
    rw [hconn] at h
    simp at h
    obtain ⟨-, hname, -, -⟩ := h
    cases hname with
    | inl h2 =>
      rw [h2] at hs
      simp at hs
    | inr h2 => exact h2

/-- Helper: with no channel-box restriction, an attribute's contribution
does not look at its short name. -/
theorem contribution_none_rename (f : String → String) (a : MayaAttribute) :
    attrCurveContribution none ⟨f a.shortName, a.connections⟩ =
      attrCurveContribution none a := by
  cases hconn : a.connections <;> simp [attrCurveContribution, hconn]

/-- Helper: renaming attributes does not change the unrestricted
contribution `filterMap`. -/
theorem filterMap_contribution_rename (f : String → String)
    (attrs : List MayaAttribute) :
    (attrs.map (fun a => (⟨f a.shortName, a.connections⟩ : MayaAttribute))).filterMap
        (attrCurveContribution none)
      = attrs.filterMap (attrCurveContribution none) := by
  induction attrs with
  | nil => rfl
  | cons a rest ih =>
    simp only [List.map_cons, List.filterMap_cons, contribution_none_rename]
    cases attrCurveContribution none a <;> simp [ih]

/-- Helper: renaming attributes does not change the unrestricted per-node
contribution `flatMap`. -/
theorem bind_contribution_rename (f : String → String)
    (nodes : List DependNode) :
    (renameAttrs f nodes).flatMap
        (fun n => n.attributes.filterMap (attrCurveContribution none))
      = nodes.flatMap
        (fun n => n.attributes.filterMap (attrCurveContribution none)) := by
  induction nodes with
  | nil => rfl
  | cons n rest ih =>
    simp only [renameAttrs, List.map_cons, List.flatMap_cons] at *
    rw [filterMap_contribution_rename, ih]

/-- C8: when the channel-box query yields a (necessarily non-empty)
restriction set, every curve returned by the object-based resolver comes
from an attribute whose short name is in the set; when the query yields
`none`, no attribute-name filtering is applied — the result is invariant
under renaming every attribute. -/
theorem channelbox_restriction_filtering (cb : ChannelBoxState)
    (nodes : List DependNode) :
    (∀ s, get_channelbox_attributes cb = some s →
      ∀ c ∈ get_anim_curves_from_objects cb nodes,
        ∃ n ∈ nodes, ∃ a ∈ n.attributes,
          a.shortName ∈ s ∧ attrCurveContribution (some s) a = some c) ∧
    (get_channelbox_attributes cb = none →
      ∀ f, get_anim_curves_from_objects cb (renameAttrs f nodes) =
        get_anim_curves_from_objects cb nodes) := by
  constructor
  · intro s hcb c hc
    rw [get_anim_curves_from_objects_eq_bind, List.mem_flatMap] at hc
    obtain ⟨n, hn, hc⟩ := hc
    rw [List.mem_filterMap] at hc
    obtain ⟨a, ha, hac⟩ := hc
    rw [hcb] at hac
    exact ⟨n, hn, a, ha,
      contribution_name_selected s (channelbox_some_ne_empty cb s hcb) a c hac,
      hac⟩
  · intro hnone f
    rw [get_anim_curves_from_objects_eq_bind,
      get_anim_curves_from_objects_eq_bind, hnone]
    exact bind_contribution_rename f nodes

/-- Witness for C8: with `tx` selected in the channel box, the returned
curve comes from the `tx` attribute. -/
theorem channelbox_restriction_filtering_witness :
    get_channelbox_attributes demoCb = some ["tx"] ∧
    ∃ n ∈ demoObjNodes, ∃ a ∈ n.attributes,
      a.shortName ∈ ["tx"] ∧
        attrCurveContribution (some ["tx"]) a = some demoCurveNodeB :=
  ⟨by decide,
   (channelbox_restriction_filtering demoCb demoObjNodes).1 ["tx"] (by decide)
     demoCurveNodeB (by decide)⟩

/-- Helper: entries survive `record`. -/
theorem mem_record_of_mem (cache : ChangeCache) (k : Nat × Nat) (o : ℚ)
    (e : CacheEntry) (he : e ∈ cache) : e ∈ record cache k o := by
  unfold record
  split
  · exact he
  · exact List.mem_append_left _ he

/-- Helper: after `record`, some entry carries the recorded key. -/
theorem record_mem_key (cache : ChangeCache) (k : Nat × Nat) (o : ℚ) :
    ∃ e ∈ record cache k o, e.key = k := by
  unfold record
  split
  · next h =>
    rw [List.any_eq_true] at h
    obtain ⟨e, he, hk⟩ := h
    exact ⟨e, he, by simpa using hk⟩
  · exact ⟨⟨k, o⟩, List.mem_append_right _ (by simp), rfl⟩

/-- Helper: one drag-time write preserves the session invariant. -/
theorem dragWrite_inv (s0 : CurveValues) (st : CurveValues × ChangeCache)
    (k : Nat × Nat) (v : ℚ) (h : cacheInv s0 st) :
    cacheInv s0 (dragWrite st k v) := by
  obtain ⟨h1, h2⟩ := h
  constructor
  · intro e he
    change e ∈ record st.2 k (st.1 k) at he
    unfold record at he
    split at he
    · exact h1 e he
    · next hany =>
      rw [List.mem_append] at he
      cases he with
      | inl h3 => exact h1 e h3
      | inr h3 =>
        simp at h3
        rw [h3]
        change st.1 k = s0 k
        apply h2
        intro e2 he2
        by_contra hkk
        apply hany
        rw [List.any_eq_true]
        exact ⟨e2, he2, by simp [hkk]⟩
  · intro k2 hk2
    change writeValue st.1 k v k2 = s0 k2
    change ∀ e ∈ record st.2 k (st.1 k), e.key ≠ k2 at hk2
    by_cases hkk : k2 = k
    · exfalso
      obtain ⟨e, he, hek⟩ := record_mem_key st.2 k (st.1 k)
      exact hk2 e he (by rw [hek, hkk])
    · unfold writeValue
      rw [if_neg hkk]
      apply h2
      intro e he
      exact hk2 e (mem_record_of_mem st.2 k (st.1 k) e he)

/-- Helper: a whole sequence of drag-time writes preserves the session
invariant. -/
theorem writes_foldl_inv (s0 : CurveValues) (ws : List ((Nat × Nat) × ℚ))
    (st : CurveValues × ChangeCache) (h : cacheInv s0 st) :
    cacheInv s0 (ws.foldl (fun st w => dragWrite st w.1 w.2) st) := by
  induction ws generalizing st with
  | nil => exact h
  | cons w rest ih => exact ih _ (dragWrite_inv s0 st w.1 w.2 h)

/-- Helper: `undo` yields the pre-session value of a key when every cache
entry for the key records that value and the key is either untouched or
recorded. -/
theorem undoIt_restores (s0 : CurveValues) (cache : ChangeCache)
    (s : CurveValues) (k : Nat × Nat)
    (hc : ∀ e ∈ cache, e.key = k → e.originalValue = s0 k)
    (hs : s k = s0 k ∨ ∃ e ∈ cache, e.key = k) :
    undoIt cache s k = s0 k := by
  induction cache generalizing s with
  | nil =>
    cases hs with
    | inl h => exact h
    | inr h => simp at h
  | cons e rest ih =>
    show undoIt rest (writeValue s e.key e.originalValue) k = s0 k
    by_cases hek : e.key = k
    · apply ih
      · intro e2 he2 hk2
        exact hc e2 (List.mem_cons_of_mem e he2) hk2
      · left
        unfold writeValue
        rw [hek, if_pos rfl]
        exact hc e (List.mem_cons_self e rest) hek
    · apply ih
      · intro e2 he2 hk2
        exact hc e2 (List.mem_cons_of_mem e he2) hk2
      · cases hs with
        | inl h =>
          left
          unfold writeValue
          rw [if_neg (fun h2 => hek h2.symm)]
          exact h
        | inr h =>
          obtain ⟨e2, he2, hk2⟩ := h
          rcases List.mem_cons.mp he2 with h3 | h3
          · rw [h3] at hk2
            exact absurd hk2 hek
          · right
            exact ⟨e2, h3, hk2⟩

/-- C2: after any sequence of drag writes in one session, undo restores
every key — touched or not — to its exact pre-session value: `undoIt` of
the session's cache composed with the session's writes is the identity on
the scene's curve values. -/
theorem undo_restores_presession_values (s0 : CurveValues)
    (ws : List ((Nat × Nat) × ℚ)) (k : Nat × Nat) :
    undoIt (sessionWrites s0 ws).2 (sessionWrites s0 ws).1 k = s0 k := by
  have hinv : cacheInv s0 (sessionWrites s0 ws) :=
    writes_foldl_inv s0 ws (s0, []) ⟨by simp, fun k2 _ => rfl⟩
  obtain ⟨h1, h2⟩ := hinv
  apply undoIt_restores
  · intro e he hk
    rw [h1 e he, hk]
  · by_cases hk : ∃ e ∈ (sessionWrites s0 ws).2, e.key = k
    · right
      exact hk
    · left
      apply h2
      push_neg at hk
      exact hk

end MayaTweener
